import Mathlib

/-!
Shallow embedding of the mongoutils package (coreymgilmore/mongoutils):
identifier validation and conversion (isIdCorrectLength, isValidHexString,
isValidId, GetObjectIdFromString, GetStringFromObjectId) and the query
parameter helpers (Limit, Sort).

Go strings are byte slices and Go `len` counts bytes, so a Go string is
embedded as a list of natural numbers (its bytes).  The external library
functions the package calls are embedded from their sources as well:
`encoding/hex` (fromHexChar, Decode, Encode), `strconv.Atoi`,
`strings.Split` (with separator ","), and the mgo/bson helpers
`IsObjectIdHex`, `ObjectIdHex`, `Hex` and `NewObjectId`.
-/

namespace Mongoutils

/-- A Go string, as its byte sequence (Go `len` counts bytes). -/
abbrev GoStr := List Nat

/-- Bytes of a Lean string literal, for writing concrete ASCII inputs. -/
def gostr (s : String) : GoStr := s.data.map Char.toNat

/-- Constant ID_LENGTH of mongoutils.go: mongo ids are exactly 24 characters. -/
def ID_LENGTH : Nat := 24

/-- Constant LIMIT_DEFAULT_VALUE of mongoutils.go. -/
def LIMIT_DEFAULT_VALUE : Int := 5

/-- Constant LIMIT_RETURN_ALL of mongoutils.go: 0 means return all results. -/
def LIMIT_RETURN_ALL : Int := 0

/-- Constant SORT_DEFAULT of mongoutils.go. -/
def SORT_DEFAULT : GoStr := gostr "_id"

/-- The error values of mongoutils.go (ErrIdBadLength, ErrIdNotHex,
ErrNoResults). -/
inductive MongoErr
  | idBadLength
  | idNotHex
  | noResults
  deriving DecidableEq, Repr

/-- Go encoding/hex fromHexChar: value of one hex digit byte, checking
the ranges for 0-9, a-f and A-F in that order. -/
def fromHexChar (c : Nat) : Option Nat :=
  if 48 ≤ c ∧ c ≤ 57 then some (c - 48)
  else if 97 ≤ c ∧ c ≤ 102 then some (c - 97 + 10)
  else if 65 ≤ c ∧ c ≤ 70 then some (c - 65 + 10)
  else none

/-- A byte is a hexadecimal digit exactly when fromHexChar accepts it. -/
def isHexByte (c : Nat) : Bool := (fromHexChar c).isSome

/-- Go encoding/hex Decode (as called through hex.DecodeString): consumes
the source two bytes at a time; errors (none) on a non-hex byte or on odd
length. -/
def hexDecode : GoStr → Option (List Nat)
  | [] => some []
  | [_] => none
  | a :: b :: rest =>
    match fromHexChar a, fromHexChar b, hexDecode rest with
    | some hi, some lo, some bs => some ((16 * hi + lo) :: bs)
    | _, _, _ => none

/-- Go encoding/hex hextable lookup: the lowercase hex digit byte for a
value below 16 (Go indexes "0123456789abcdef"). -/
def toHexChar (d : Nat) : Nat := if d < 10 then 48 + d else 87 + d

/-- Go encoding/hex Encode (as called through hex.EncodeToString): each
byte v becomes the digits of v>>4 and v&0x0f (for bytes these are v/16
and v%16). -/
def hexEncode : List Nat → GoStr
  | [] => []
  | b :: rest => toHexChar (b / 16) :: toHexChar (b % 16) :: hexEncode rest

/-- An mgo/bson ObjectId is 12 bytes. -/
abbrev ObjectId := List Nat

namespace bson

/-- mgo/bson IsObjectIdHex: length is 24 and hex.DecodeString succeeds. -/
def IsObjectIdHex (d : GoStr) : Bool :=
  if d.length ≠ 24 then false else (hexDecode d).isSome

/-- mgo/bson ObjectIdHex: decode the hex string; the Go function panics
(here: none) unless the decode succeeds and yields 12 bytes. -/
def ObjectIdHex (s : GoStr) : Option ObjectId :=
  match hexDecode s with
  | some d => if d.length = 12 then some d else none
  | none => none

/-- mgo/bson ObjectId.Hex: hex.EncodeToString of the 12 id bytes
(always lowercase, by hextable). -/
def Hex (id : ObjectId) : GoStr := hexEncode id

end bson

/-- mongoutils.go isIdCorrectLength: (false, ErrIdBadLength) unless the
input length is exactly ID_LENGTH. -/
def isIdCorrectLength (inputId : GoStr) : Bool × Option MongoErr :=
  if inputId.length ≠ ID_LENGTH then (false, some MongoErr.idBadLength)
  else (true, none)

/-- mongoutils.go isValidHexString: (false, ErrIdNotHex) unless
bson.IsObjectIdHex accepts the input. -/
def isValidHexString (inputId : GoStr) : Bool × Option MongoErr :=
  if bson.IsObjectIdHex inputId = false then (false, some MongoErr.idNotHex)
  else (true, none)

/-- mongoutils.go isValidId: the length check first, then the hex check,
short-circuiting on the first failure. -/
def isValidId (inputId : GoStr) : Bool × Option MongoErr :=
  let r1 := isIdCorrectLength inputId
  if r1.1 = false then (false, r1.2)
  else
    let r2 := isValidHexString inputId
    if r2.1 = false then (false, r2.2)
    else (true, none)

/-- mongoutils.go GetObjectIdFromString, outcome view: validate, then
bson.ObjectIdHex.  In Go the error branch returns bson.NewObjectId()
alongside the non-nil error and callers inspect only the error; this pure
view keeps the Except outcome (the stateful view below also models the
freshly generated id).  The two fallback arms are unreachable: isValidId
never returns (false, none), and a validated input always decodes
(theorems isValidId_false_some and ObjectIdHex_of_isValidId below). -/
def GetObjectIdFromString (inputId : GoStr) : Except MongoErr ObjectId :=
  match isValidId inputId with
  | (false, some e) => Except.error e
  | (false, none) => Except.error MongoErr.idBadLength
  | (true, _) =>
    match bson.ObjectIdHex inputId with
    | some oid => Except.ok oid
    | none => Except.error MongoErr.idNotHex

/-- mongoutils.go GetStringFromObjectId: bson ObjectId.Hex. -/
def GetStringFromObjectId (input : ObjectId) : GoStr := bson.Hex input

/-- State of mgo/bson NewObjectId: the 9 leading bytes drawn from the
current time, machine id and pid, and the global objectIdCounter
(a uint32 incremented atomically on every call). -/
structure OidGen where
  stamp : List Nat
  counter : Nat
  deriving DecidableEq, Repr

/-- mgo/bson NewObjectId: increments the global uint32 counter (modulus
4294967296) and appends its low three bytes, big endian (byte(i>>16),
byte(i>>8), byte(i)), to the time/machine/pid bytes. -/
def NewObjectId (g : OidGen) : ObjectId × OidGen :=
  let i := (g.counter + 1) % 4294967296
  (g.stamp ++ [i / 65536 % 256, i / 256 % 256, i % 256], ⟨g.stamp, i⟩)

/-- mongoutils.go GetObjectIdFromString, stateful view: exactly the Go
function, with the global generator state passed explicitly.  The error
branch returns bson.NewObjectId() together with the error, advancing the
generator; the success branch touches no state.  The fallback arm is
unreachable (a validated input always decodes). -/
def GetObjectIdFromStringSt (inputId : GoStr) (g : OidGen) :
    (ObjectId × Option MongoErr) × OidGen :=
  let r := isValidId inputId
  if r.1 = false then
    let p := NewObjectId g
    ((p.1, r.2), p.2)
  else
    match bson.ObjectIdHex inputId with
    | some oid => ((oid, none), g)
    | none => (([], some MongoErr.idNotHex), g)

/-- Go strconv digit accumulation (ParseUint, base 10): consume decimal
digit bytes left to right; none on a non-digit. -/
def parseDigits : GoStr → Nat → Option Nat
  | [], acc => some acc
  | c :: rest, acc =>
    if 48 ≤ c ∧ c ≤ 57 then parseDigits rest (acc * 10 + (c - 48))
    else none

/-- Go strconv.Atoi on a 64-bit platform: optional single + or - sign,
then at least one decimal digit; errors (none) on an empty string, a bare
sign, any non-digit byte, or a value outside the int64 range. -/
def Atoi (s : GoStr) : Option Int :=
  match s with
  | [] => none
  | c :: rest =>
    if c = 43 then
      if rest = [] then none
      else
        match parseDigits rest 0 with
        | some n => if n ≤ 2 ^ 63 - 1 then some (n : Int) else none
        | none => none
    else if c = 45 then
      if rest = [] then none
      else
        match parseDigits rest 0 with
        | some n => if n ≤ 2 ^ 63 then some (-(n : Int)) else none
        | none => none
    else
      match parseDigits (c :: rest) 0 with
      | some n => if n ≤ 2 ^ 63 - 1 then some (n : Int) else none
      | none => none

/-- mongoutils.go Limit, on the raw "limit" form value (the HTTP form
extraction is the input boundary): empty means the default, the literals
"none" and "all" mean return-all, otherwise strconv.Atoi with the default
on parse failure.  The function is total: no input is rejected. -/
def Limit (limit : GoStr) : Int :=
  if limit.length = 0 then LIMIT_DEFAULT_VALUE
  else if limit = gostr "none" ∨ limit = gostr "all" then LIMIT_RETURN_ALL
  else
    match Atoi limit with
    | some limitInt => limitInt
    | none => LIMIT_DEFAULT_VALUE

/-- Go strings.Split with separator "," (byte 44): the substrings between
commas, kept in order, empty tokens and whitespace preserved.  The
accumulator holds the current token reversed. -/
def splitOnComma : GoStr → GoStr → List GoStr
  | [], acc => [acc.reverse]
  | c :: rest, acc =>
    if c = 44 then acc.reverse :: splitOnComma rest []
    else splitOnComma rest (c :: acc)

/-- mongoutils.go Sort (the multi-field revision, src/unnamed/part_003),
on the raw "sort" form value: empty input yields the default field,
otherwise strings.Split on ",".  Named SortFields because Sort is a Lean
keyword. -/
def SortFields (sort : GoStr) : List GoStr :=
  if sort.length = 0 then [SORT_DEFAULT]
  else splitOnComma sort []

/-- Direction of one sort directive. -/
inductive SortDirection
  | ascending
  | descending
  deriving DecidableEq, Repr

/-- One sort directive: a field name and a direction. -/
structure SortSpec where
  field : GoStr
  direction : SortDirection
  deriving DecidableEq, Repr

/-- Modelled from the spec: the token-to-directive reading applied
downstream of Sort (in the repository the returned tokens are handed to
the external mgo driver's Query.Sort).  Per the spec, a leading minus
sign (byte 45) marks descending order and is stripped from the field
name; absence of the minus sign marks ascending order. -/
def toSortSpec (token : GoStr) : SortSpec :=
  match token with
  | [] => ⟨token, SortDirection.ascending⟩
  | c :: rest =>
    if c = 45 then ⟨rest, SortDirection.descending⟩
    else ⟨c :: rest, SortDirection.ascending⟩

/-- The spec's resolveSort: the tokens Sort returns, read as directives. -/
def resolveSort (raw : GoStr) : List SortSpec := (SortFields raw).map toSortSpec

/-- A valid external id per the spec's data model: exactly 24 bytes, each
a hexadecimal digit. -/
def ValidExternalId (s : GoStr) : Prop := s.length = 24 ∧ ∀ c ∈ s, isHexByte c

/-- An internally generated identifier: 12 bytes. -/
def ValidOid (id : ObjectId) : Prop := id.length = 12 ∧ ∀ b ∈ id, b < 256

/-- Case normalization: uppercase hex digit bytes A-F become lowercase,
all other bytes unchanged. -/
def hexLower (c : Nat) : Nat := if 65 ≤ c ∧ c ≤ 70 then c + 32 else c

instance (s : GoStr) : Decidable (ValidExternalId s) := by
  unfold ValidExternalId
  infer_instance

instance (id : ObjectId) : Decidable (ValidOid id) := by
  unfold ValidOid
  infer_instance

/-- Decoding a hex digit back from the digit byte toHexChar produced. -/
theorem fromHexChar_toHexChar {d : Nat} (h : d < 16) :
    fromHexChar (toHexChar d) = some d := by
  interval_cases d <;> rfl

/-- A successful fromHexChar gives a value below 16, and encoding that
value reproduces the lowercased input byte. -/
theorem toHexChar_fromHexChar {c d : Nat} (h : fromHexChar c = some d) :
    d < 16 ∧ toHexChar d = hexLower c := by
  unfold fromHexChar at h
  unfold toHexChar hexLower
  split_ifs at h with h1 h2 h3 <;> simp only [Option.some.injEq] at h <;>
    split_ifs <;> omega

/-- hexEncode doubles the length. -/
theorem hexEncode_length (bs : List Nat) : (hexEncode bs).length = 2 * bs.length := by
  induction bs with
  | nil => rfl
  | cons b rest ih => simp [hexEncode, ih]; omega

/-- Decoding an encoding of bytes gives the bytes back. -/
theorem hexDecode_hexEncode (bs : List Nat) (h : ∀ b ∈ bs, b < 256) :
    hexDecode (hexEncode bs) = some bs := by
  induction bs with
  | nil => rfl
  | cons b rest ih =>
    have hb : b < 256 := h b (List.mem_cons_self b rest)
    have h1 : b / 16 < 16 := by omega
    have h2 : b % 16 < 16 := by omega
    have h3 := ih fun x hx => h x (List.mem_cons_of_mem _ hx)
    simp only [hexEncode, hexDecode, fromHexChar_toHexChar h1, fromHexChar_toHexChar h2, h3]
    have : 16 * (b / 16) + b % 16 = b := by omega
    simp [this]

/-- What a successful hexDecode guarantees: the byte count is half the
input length, every byte is below 256, and re-encoding reproduces the
input up to lowercasing. -/
theorem hexDecode_spec : ∀ (cs : GoStr) (bs : List Nat), hexDecode cs = some bs →
    2 * bs.length = cs.length ∧ (∀ x ∈ bs, x < 256) ∧ hexEncode bs = cs.map hexLower
  | [], bs, h => by
    simp only [hexDecode, Option.some.injEq] at h
    subst h
    exact ⟨rfl, by simp, rfl⟩
  | [c], bs, h => by simp [hexDecode] at h
  | a :: b :: rest, bs, h => by
    simp only [hexDecode] at h
    cases hfa : fromHexChar a with
    | none => simp [hfa] at h
    | some hi =>
      cases hfb : fromHexChar b with
      | none => simp [hfa, hfb] at h
      | some lo =>
        cases hfr : hexDecode rest with
        | none => simp [hfa, hfb, hfr] at h
        | some tail =>
          simp only [hfa, hfb, hfr, Option.some.injEq] at h
          subst h
          obtain ⟨hhi, hea⟩ := toHexChar_fromHexChar hfa
          obtain ⟨hlo, heb⟩ := toHexChar_fromHexChar hfb
          obtain ⟨hl, hb, he⟩ := hexDecode_spec rest tail hfr
          refine ⟨by simp; omega, ?_, ?_⟩
          · intro x hx
            rcases List.mem_cons.mp hx with h | h
            · omega
            · exact hb x h
          · have hdiv : (16 * hi + lo) / 16 = hi := by omega
            have hmod : (16 * hi + lo) % 16 = lo := by omega
            simp [hexEncode, hdiv, hmod, hea, heb, he]

/-- hexDecode succeeds on an even-length all-hex string. -/
theorem hexDecode_total : ∀ cs : GoStr, cs.length % 2 = 0 → (∀ c ∈ cs, isHexByte c) →
    ∃ bs, hexDecode cs = some bs
  | [], _, _ => ⟨[], rfl⟩
  | [c], h, _ => by simp at h
  | a :: b :: rest, h, hall => by
    obtain ⟨tail, htail⟩ :=
      hexDecode_total rest (by simp only [List.length_cons] at h; omega)
        (fun c hc => hall c (List.mem_cons_of_mem _ (List.mem_cons_of_mem _ hc)))
    have ha := hall a (List.mem_cons_self _ _)
    have hb := hall b (List.mem_cons_of_mem _ (List.mem_cons_self _ _))
    unfold isHexByte at ha hb
    obtain ⟨da, hda⟩ := Option.isSome_iff_exists.mp ha
    obtain ⟨db, hdb⟩ := Option.isSome_iff_exists.mp hb
    refine ⟨(16 * da + db) :: tail, ?_⟩
    simp [hexDecode, hda, hdb, htail]

/-- A single non-hex byte anywhere makes hexDecode fail. -/
theorem hexDecode_eq_none_of_mem : ∀ (cs : GoStr) (c : Nat), c ∈ cs →
    isHexByte c = false → hexDecode cs = none
  | [], c, hc, _ => absurd hc (List.not_mem_nil c)
  | [_], _, _, _ => rfl
  | a :: b :: rest, c, hc, hhex => by
    simp only [hexDecode]
    rcases List.mem_cons.mp hc with h | h
    · subst h
      have : fromHexChar c = none := by
        unfold isHexByte at hhex
        cases hx : fromHexChar c with
        | none => rfl
        | some d => rw [hx] at hhex; simp at hhex
      simp [this]
    · rcases List.mem_cons.mp h with h2 | h2
      · subst h2
        have : fromHexChar c = none := by
          unfold isHexByte at hhex
          cases hx : fromHexChar c with
          | none => rfl
          | some d => rw [hx] at hhex; simp at hhex
        simp [this]
      · have := hexDecode_eq_none_of_mem rest c h2 hhex
        simp [this]

/-- isValidId accepts exactly the 24-byte strings hexDecode accepts. -/
theorem isValidId_true (s : GoStr) (hlen : s.length = 24) (hdec : (hexDecode s).isSome) :
    isValidId s = (true, none) := by
  unfold isValidId isIdCorrectLength isValidHexString bson.IsObjectIdHex
  simp [ID_LENGTH, hlen, hdec]

/-- When isValidId reports true the input is 24 bytes and hexDecode
succeeds on it. -/
theorem isValidId_true_elim (s : GoStr) (h : (isValidId s).1 = true) :
    s.length = 24 ∧ (hexDecode s).isSome := by
  unfold isValidId isIdCorrectLength isValidHexString bson.IsObjectIdHex at h
  by_cases h1 : s.length = 24
  · refine ⟨h1, ?_⟩
    by_cases h2 : (hexDecode s).isSome
    · exact h2
    · simp [ID_LENGTH, h1, h2] at h
  · simp [ID_LENGTH, h1] at h

/-- isValidId never pairs false with a nil error. -/
theorem isValidId_false_some (s : GoStr) (h : (isValidId s).1 = false) :
    ∃ e, isValidId s = (false, some e) := by
  unfold isValidId isIdCorrectLength isValidHexString bson.IsObjectIdHex at h ⊢
  by_cases h1 : s.length = 24
  · by_cases h2 : (hexDecode s).isSome
    · simp [ID_LENGTH, h1, h2] at h
    · exact ⟨MongoErr.idNotHex, by simp [ID_LENGTH, h1, h2]⟩
  · exact ⟨MongoErr.idBadLength, by simp [ID_LENGTH, h1]⟩

/-- On an input isValidId accepts, bson.ObjectIdHex cannot panic: it
yields a 12-byte id. -/
theorem ObjectIdHex_of_isValidId (s : GoStr) (h : (isValidId s).1 = true) :
    ∃ id, bson.ObjectIdHex s = some id ∧ id.length = 12 := by
  obtain ⟨hlen, hdec⟩ := isValidId_true_elim s h
  obtain ⟨bs, hbs⟩ := Option.isSome_iff_exists.mp hdec
  have h12 : bs.length = 12 := by
    have := (hexDecode_spec s bs hbs).1
    omega
  exact ⟨bs, by simp [bson.ObjectIdHex, hbs, h12], h12⟩

/-- Successful decode of a 24-byte hex input. -/
theorem GetObjectIdFromString_ok (s : GoStr) (bs : List Nat) (hlen : s.length = 24)
    (hdec : hexDecode s = some bs) :
    GetObjectIdFromString s = Except.ok bs := by
  have hv := isValidId_true s hlen (by simp [hdec])
  have h12 : bs.length = 12 := by
    have := (hexDecode_spec s bs hdec).1
    omega
  unfold GetObjectIdFromString
  rw [hv]
  simp [bson.ObjectIdHex, hdec, h12]

/-- The decode outcome is an error exactly as isValidId reports one. -/
theorem GetObjectIdFromString_error (s : GoStr) (e : MongoErr)
    (h : isValidId s = (false, some e)) :
    GetObjectIdFromString s = Except.error e := by
  unfold GetObjectIdFromString
  rw [h]

/-- C1: encode and decode are mutually inverse: decoding the encoding of
any internally generated (12-byte) identifier gives the identifier back,
and on any valid 24-byte hexadecimal string decode succeeds and encode of
the result reproduces the string up to case normalization (encode always
yields lowercase). -/
theorem codec_roundTrip :
    (∀ id : ObjectId, ValidOid id →
      GetObjectIdFromString (GetStringFromObjectId id) = Except.ok id) ∧
    (∀ s : GoStr, ValidExternalId s →
      ∃ id : ObjectId, GetObjectIdFromString s = Except.ok id ∧
        GetStringFromObjectId id = s.map hexLower) := by
  constructor
  · rintro id ⟨hlen, hbytes⟩
    have hdec := hexDecode_hexEncode id hbytes
    have hlen2 : (hexEncode id).length = 24 := by rw [hexEncode_length]; omega
    simpa only [GetStringFromObjectId, bson.Hex] using
      GetObjectIdFromString_ok (hexEncode id) id hlen2 hdec
  · rintro s ⟨hlen, hhex⟩
    obtain ⟨bs, hbs⟩ := hexDecode_total s (by omega) hhex
    exact ⟨bs, GetObjectIdFromString_ok s bs hlen hbs, (hexDecode_spec s bs hbs).2.2⟩

/-- Witness for codec_roundTrip: a concrete 12-byte identifier and a
concrete mixed-case valid external id. -/
theorem codec_roundTrip_witness :
    ValidOid [0, 17, 34, 51, 68, 85, 102, 119, 136, 153, 170, 187] ∧
    GetObjectIdFromString
        (GetStringFromObjectId [0, 17, 34, 51, 68, 85, 102, 119, 136, 153, 170, 187]) =
      Except.ok [0, 17, 34, 51, 68, 85, 102, 119, 136, 153, 170, 187] ∧
    ValidExternalId (gostr "0123456789ABCDEF01234567") ∧
    ∃ id, GetObjectIdFromString (gostr "0123456789ABCDEF01234567") = Except.ok id ∧
      GetStringFromObjectId id = (gostr "0123456789ABCDEF01234567").map hexLower :=
  ⟨by decide, codec_roundTrip.1 _ (by decide), by decide, codec_roundTrip.2 _ (by decide)⟩

/-- C2: any input whose length is not 24 is rejected with the bad-length
error, regardless of its characters: the length check runs first. -/
theorem decode_badLength (s : GoStr) (h : s.length ≠ 24) :
    GetObjectIdFromString s = Except.error MongoErr.idBadLength := by
  apply GetObjectIdFromString_error
  unfold isValidId isIdCorrectLength
  simp [ID_LENGTH, h]

/-- Witness for decode_badLength: a short input that also holds non-hex
characters still reports the length error. -/
theorem decode_badLength_witness :
    (gostr "zz*").length ≠ 24 ∧
    GetObjectIdFromString (gostr "zz*") = Except.error MongoErr.idBadLength :=
  ⟨by decide, decode_badLength _ (by decide)⟩

/-- C3: a 24-byte input holding at least one non-hexadecimal byte is
rejected with the not-hex error. -/
theorem decode_notHex (s : GoStr) (hlen : s.length = 24) (c : Nat) (hc : c ∈ s)
    (hhex : isHexByte c = false) :
    GetObjectIdFromString s = Except.error MongoErr.idNotHex := by
  apply GetObjectIdFromString_error
  have hdec := hexDecode_eq_none_of_mem s c hc hhex
  unfold isValidId isIdCorrectLength isValidHexString bson.IsObjectIdHex
  simp [ID_LENGTH, hlen, hdec]

/-- Witness for decode_notHex: 24 bytes with a final letter z. -/
theorem decode_notHex_witness :
    (gostr "0123456789abcdef0123456z").length = 24 ∧
    GetObjectIdFromString (gostr "0123456789abcdef0123456z") =
      Except.error MongoErr.idNotHex :=
  ⟨by decide, decode_notHex _ (by decide) 122 (by decide) (by decide)⟩

/-- C4: Limit maps empty input to the default 5, the case-sensitive
literals "none" and "all" to the sentinel 0, any other input that parses
as an integer to that integer verbatim (zero and negatives included), and
any other input that fails integer parsing back to 5; it is a total
function, never an error. -/
theorem limit_resolution :
    Limit (gostr "") = 5 ∧
    Limit (gostr "none") = 0 ∧
    Limit (gostr "all") = 0 ∧
    ∀ s : GoStr, s.length ≠ 0 → s ≠ gostr "none" → s ≠ gostr "all" →
      (∀ n : Int, Atoi s = some n → Limit s = n) ∧
      (Atoi s = none → Limit s = 5) := by
  refine ⟨by decide, by decide, by decide, ?_⟩
  intro s h1 h2 h3
  constructor
  · intro n hn
    unfold Limit
    simp [h1, h2, h3, hn]
  · intro hn
    unfold Limit
    simp [h1, h2, h3, hn, LIMIT_DEFAULT_VALUE]

/-- Witness for limit_resolution: a negative literal is returned verbatim
and a malformed literal falls back to 5. -/
theorem limit_resolution_witness :
    (gostr "-12").length ≠ 0 ∧ Atoi (gostr "-12") = some (-12) ∧
    Limit (gostr "-12") = -12 ∧
    (gostr "x7").length ≠ 0 ∧ Atoi (gostr "x7") = none ∧ Limit (gostr "x7") = 5 :=
  ⟨by decide, by decide,
    (limit_resolution.2.2.2 _ (by decide) (by decide) (by decide)).1 _ (by decide),
    by decide, by decide,
    (limit_resolution.2.2.2 _ (by decide) (by decide) (by decide)).2 (by decide)⟩

/-- C9: the literal input "0" resolves to 0, the very value
LIMIT_RETURN_ALL that the "none" and "all" sentinels resolve to. -/
theorem limit_zero_sentinel :
    Limit (gostr "0") = LIMIT_RETURN_ALL ∧
    Limit (gostr "0") = Limit (gostr "none") ∧
    Limit (gostr "0") = Limit (gostr "all") ∧
    Limit (gostr "0") = 0 := by decide

/-- C5: on non-empty input Sort splits on the comma byte with no
trimming, and the directives come back exactly as the tokens in split
order; the whitespace example shows tokens are used exactly as split. -/
theorem resolveSort_splits :
    (∀ raw : GoStr, raw.length ≠ 0 →
      SortFields raw = splitOnComma raw [] ∧
      resolveSort raw = (splitOnComma raw []).map toSortSpec) ∧
    resolveSort (gostr "birthday,-username") =
      [⟨gostr "birthday", SortDirection.ascending⟩,
       ⟨gostr "username", SortDirection.descending⟩] ∧
    resolveSort (gostr " a ,b") =
      [⟨gostr " a ", SortDirection.ascending⟩,
       ⟨gostr "b", SortDirection.ascending⟩] := by
  refine ⟨?_, by decide, by decide⟩
  intro raw h
  constructor
  · unfold SortFields
    simp [h]
  · unfold resolveSort SortFields
    simp [h]

/-- Witness for resolveSort_splits at the input "x,y". -/
theorem resolveSort_splits_witness :
    (gostr "x,y").length ≠ 0 ∧
    SortFields (gostr "x,y") = splitOnComma (gostr "x,y") [] ∧
    resolveSort (gostr "x,y") = (splitOnComma (gostr "x,y") []).map toSortSpec :=
  ⟨by decide, (resolveSort_splits.1 _ (by decide)).1,
    (resolveSort_splits.1 _ (by decide)).2⟩

/-- C6: every directive comes from its token through toSortSpec, and a
leading minus byte (45) marks descending order and is stripped from the
field name, while its absence marks ascending order with the token kept
whole. -/
theorem sortspec_minus_flag :
    (∀ raw : GoStr, resolveSort raw = (SortFields raw).map toSortSpec) ∧
    (∀ rest : GoStr, toSortSpec (45 :: rest) = ⟨rest, SortDirection.descending⟩) ∧
    (∀ token : GoStr, token.head? ≠ some 45 →
      toSortSpec token = ⟨token, SortDirection.ascending⟩) := by
  refine ⟨fun raw => rfl, fun rest => rfl, ?_⟩
  intro token h
  match token with
  | [] => rfl
  | c :: rest =>
    have hc : c ≠ 45 := by simpa using h
    simp [toSortSpec, hc]

/-- Witness for sortspec_minus_flag: one plain and one minus-prefixed
token. -/
theorem sortspec_minus_flag_witness :
    (gostr "name").head? ≠ some 45 ∧
    toSortSpec (gostr "name") = ⟨gostr "name", SortDirection.ascending⟩ ∧
    toSortSpec (45 :: gostr "age") = ⟨gostr "age", SortDirection.descending⟩ :=
  ⟨by decide, sortspec_minus_flag.2.2 _ (by decide),
    sortspec_minus_flag.2.1 (gostr "age")⟩

/-- C7: on empty (or absent) input Sort returns exactly the default
field, read as one ascending directive on the primary-key field. -/
theorem resolveSort_default :
    SortFields (gostr "") = [SORT_DEFAULT] ∧
    resolveSort (gostr "") = [⟨gostr "_id", SortDirection.ascending⟩] := by decide

/-- splitOnComma never returns the empty list. -/
theorem splitOnComma_length_pos : ∀ (cs acc : GoStr), 0 < (splitOnComma cs acc).length
  | [], acc => by simp [splitOnComma]
  | c :: rest, acc => by
    unfold splitOnComma
    by_cases h : c = 44
    · simp [h]
    · simpa [h] using splitOnComma_length_pos rest (c :: acc)

/-- C10: resolveSort never returns the empty sequence: empty input yields
the default directive, and splitting a non-empty string always yields at
least one token. -/
theorem resolveSort_nonempty : ∀ raw : GoStr, 0 < (resolveSort raw).length := by
  intro raw
  unfold resolveSort SortFields
  by_cases h : raw.length = 0
  · simp [h]
  · simpa [h] using splitOnComma_length_pos raw []

/-- On an input the validators reject, the stateful decode takes the
error branch: it returns the freshly generated identifier next to the
error and advances the generator counter. -/
theorem GetObjectIdFromStringSt_error (s : GoStr) (e : MongoErr) (st : List Nat) (c : Nat)
    (h : isValidId s = (false, some e)) :
    GetObjectIdFromStringSt s ⟨st, c⟩ =
      ((st ++ [(c + 1) % 4294967296 / 65536 % 256,
               (c + 1) % 4294967296 / 256 % 256,
               (c + 1) % 4294967296 % 256], some e),
       ⟨st, (c + 1) % 4294967296⟩) := by
  unfold GetObjectIdFromStringSt NewObjectId
  simp [h]

/-- C8 counterexample: on the invalid input "bad" the Go code returns
bson.NewObjectId() alongside the error, so the global generator state is
advanced and two sequential invocations return different identifier
values: the claim that both invocations yield the same returned
identifier value while touching no global state fails here. -/
theorem decode_statefree_counterexample :
    ¬ ((GetObjectIdFromStringSt (gostr "bad") ⟨List.replicate 9 0, 0⟩).2 =
          ⟨List.replicate 9 0, 0⟩ ∧
       ((GetObjectIdFromStringSt (gostr "bad") ⟨List.replicate 9 0, 0⟩).1).1 =
          ((GetObjectIdFromStringSt (gostr "bad")
              (GetObjectIdFromStringSt (gostr "bad") ⟨List.replicate 9 0, 0⟩).2).1).1) := by
  decide

/-- C8 as amended: the success/error outcome of decode is deterministic
and independent of the generator state; on success decode is pure (the
returned identifier is a function of the input and the state is
untouched); but on the error path the code draws a fresh identifier from
the global generator, so the state is advanced and the returned
identifier values of two sequential invocations differ. -/
theorem decode_outcome_deterministic :
    (∀ (s : GoStr) (g g2 : OidGen),
      ((GetObjectIdFromStringSt s g).1).2 = ((GetObjectIdFromStringSt s g2).1).2) ∧
    (∀ (s : GoStr) (g : OidGen) (id : ObjectId),
      GetObjectIdFromString s = Except.ok id →
        GetObjectIdFromStringSt s g = ((id, none), g)) ∧
    (∀ (s : GoStr) (g : OidGen) (e : MongoErr),
      GetObjectIdFromString s = Except.error e →
        ((GetObjectIdFromStringSt s g).1).2 = some e ∧
        (GetObjectIdFromStringSt s g).2 ≠ g ∧
        ((GetObjectIdFromStringSt s g).1).1 ≠
          ((GetObjectIdFromStringSt s ((GetObjectIdFromStringSt s g).2)).1).1) := by
  refine ⟨?_, ?_, ?_⟩
  · intro s g g2
    unfold GetObjectIdFromStringSt
    by_cases h : (isValidId s).1 = false
    · simp [h]
    · simp only [h, if_false]
      cases bson.ObjectIdHex s <;> simp
  · intro s g id h
    unfold GetObjectIdFromString at h
    cases hv : isValidId s with
    | mk b e =>
      rw [hv] at h
      cases b
      · cases e <;> simp at h
      · cases ho : bson.ObjectIdHex s with
        | none => rw [ho] at h; simp at h
        | some oid =>
          rw [ho] at h
          simp only [Except.ok.injEq] at h
          subst h
          unfold GetObjectIdFromStringSt
          simp [hv, ho]
  · intro s g e h
    have hf : (isValidId s).1 = false := by
      by_contra hb
      have ht : (isValidId s).1 = true := by simpa using hb
      obtain ⟨id, hid, _⟩ := ObjectIdHex_of_isValidId s ht
      unfold GetObjectIdFromString at h
      cases hv : isValidId s with
      | mk b e2 =>
        rw [hv] at ht
        simp only at ht
        subst ht
        rw [hv, hid] at h
        simp at h
    obtain ⟨e2, he2⟩ := isValidId_false_some s hf
    have hee : e2 = e := by
      unfold GetObjectIdFromString at h
      rw [he2] at h
      simpa using h
    subst hee
    obtain ⟨st, c⟩ := g
    rw [GetObjectIdFromStringSt_error s e2 st c he2]
    refine ⟨rfl, ?_, ?_⟩
    · intro hEq
      simp only [OidGen.mk.injEq] at hEq
      omega
    · rw [GetObjectIdFromStringSt_error s e2 st ((c + 1) % 4294967296) he2]
      intro hEq
      have h3 := List.append_cancel_left hEq
      simp only [List.cons.injEq, and_true] at h3
      obtain ⟨q1, q2, q3⟩ := h3
      omega

/-- Witness for decode_outcome_deterministic at the invalid input "bad"
and a concrete generator state. -/
theorem decode_outcome_deterministic_witness :
    GetObjectIdFromString (gostr "bad") = Except.error MongoErr.idBadLength ∧
    ((GetObjectIdFromStringSt (gostr "bad") ⟨List.replicate 9 0, 5⟩).1).2 =
      some MongoErr.idBadLength ∧
    (GetObjectIdFromStringSt (gostr "bad") ⟨List.replicate 9 0, 5⟩).2 ≠
      ⟨List.replicate 9 0, 5⟩ :=
  ⟨by rfl,
    (decode_outcome_deterministic.2.2 _ ⟨List.replicate 9 0, 5⟩ _ (by rfl)).1,
    (decode_outcome_deterministic.2.2 _ ⟨List.replicate 9 0, 5⟩ _ (by rfl)).2.1⟩

example : gostr "none" = [110, 111, 110, 101] := by decide
example : Limit (gostr "10") = 10 := by decide
example : Limit (gostr "abc") = 5 := by decide
example : Limit (gostr "-7") = -7 := by decide
example : Limit (gostr "0") = 0 := by decide
example : Limit (gostr "none") = 0 := by decide
example : Limit (gostr "") = 5 := by decide
example : SortFields (gostr "a,,b") = [gostr "a", gostr "", gostr "b"] := by decide
example : resolveSort (gostr "birthday,-username") =
    [⟨gostr "birthday", SortDirection.ascending⟩,
     ⟨gostr "username", SortDirection.descending⟩] := by decide
example : GetObjectIdFromString (gostr "abc") = Except.error MongoErr.idBadLength := by
  rfl
example : GetObjectIdFromString (gostr "zzzzzzzzzzzzzzzzzzzzzzzz") =
    Except.error MongoErr.idNotHex := by rfl
example : GetObjectIdFromString (gostr "0123456789abcdef01234567") =
    Except.ok [1, 35, 69, 103, 137, 171, 205, 239, 1, 35, 69, 103] := by rfl

end Mongoutils
